import Mathlib

set_option maxRecDepth 100000

/-!
Verification development for the DocuMind retrieval core: a shallow
embedding in Lean 4 of the chunker (`src/chunking.py`), the TTL cache
(`src/cache.py`), the vector index (`src/vector_store.py`), the context
assembly of the query processor (`src/query_processor.py`) and the
query entry point (`src/main.py`), together with theorems settling the
specification's claims about them.

Python machine-level conventions used throughout the embedding:
* Python `int` is unbounded, modelled as `Int` (or `Nat` where the source
  value is manifestly non-negative, e.g. lengths and clock readings).
* Python `str` is modelled as `List Char` where index arithmetic matters
  (the chunker), and as `String` elsewhere.
* Exceptions are modelled with `Except PyExc`.
-/

/-- Exception kinds raised or caught by the modelled code paths. -/
inductive PyExc where
  | fileNotFoundError
  | unpicklingError
  | eofError
  | keyError
  | typeError
  | valueError (msg : String)
  deriving DecidableEq, Repr

/-! ## Chunker (`src/chunking.py`, `DocumentChunker.chunk_by_tokens`, lines 24-59)

The while-loop of `chunk_by_tokens` is embedded as an explicit step
function on the loop state `(start, chunks)`; the loop guard is
`start < len(text)`.  Python string primitives used by the loop body
(`str.rfind`, slicing, `str.strip`) are modelled below with Python's
slice-index normalization (negative indices count from the end, and
everything is clamped to `[0, len]`). -/

/-- Python slice-index normalization: a negative index has the length
added, and the result is clamped into `[0, len]`. -/
def pySliceIdx (len : Nat) (i : Int) : Nat :=
  min (if i < 0 then (i + len).toNat else i.toNat) len

/-- Python `text[i:j]` on a `List Char`. -/
def pySlice (t : List Char) (i j : Int) : List Char :=
  (t.take (pySliceIdx t.length j)).drop (pySliceIdx t.length i)

/-- Python `text.rfind(c, i, j)`: the highest index `p` with
`i ≤ p < j` (after slice normalization) and `t[p] = c`, else `-1`. -/
def pyRfind (t : List Char) (c : Char) (i j : Int) : Int :=
  let s := pySliceIdx t.length i
  let e := pySliceIdx t.length j
  let window := (t.take e).drop s
  match window.reverse.findIdx? (· == c) with
  | some k => (s : Int) + ((window.length - 1 - k : Nat) : Int)
  | none => -1

/-- Python `text.strip()`: drop whitespace from both ends. -/
def pyStrip (t : List Char) : List Char :=
  ((t.dropWhile Char.isWhitespace).reverse.dropWhile Char.isWhitespace).reverse

/-- State of the `chunk_by_tokens` while-loop: the cursor `start` and the
accumulated `chunks` list (`src/chunking.py` lines 37-38). -/
structure ChunkState where
  start : Int
  chunks : List (List Char)
  deriving Repr

/-- Initial loop state: `chunks = []`, `start = 0` (`src/chunking.py`
lines 37-38). -/
def chunkInit : ChunkState := ⟨0, []⟩

/-- The window-end computation of one iteration (`src/chunking.py` lines
41-51): `end = start + chunk_size`; if `end < len(text)`, look for the
last `'.'` or `'\n'` in `[start, end)` and, if found after `start`,
shrink `end` to just past it. -/
def windowEnd (chunkSize : Int) (text : List Char) (start : Int) : Int :=
  let e := start + chunkSize
  if e < (text.length : Int) then
    let periodIdx := pyRfind text '.' start e
    let newlineIdx := pyRfind text '\n' start e
    let breakIdx := max periodIdx newlineIdx
    if breakIdx > start then breakIdx + 1 else e
  else e

/-- One iteration of the `chunk_by_tokens` while-loop body
(`src/chunking.py` lines 40-57): compute the (possibly shrunk) window
end, append the stripped slice if non-empty, and set
`start = end - chunk_overlap`. -/
def chunk_by_tokens_step (chunkSize chunkOverlap : Int) (text : List Char)
    (st : ChunkState) : ChunkState :=
  let e := windowEnd chunkSize text st.start
  let chunk := pyStrip (pySlice text st.start e)
  { start := e - chunkOverlap
    chunks := if chunk.isEmpty then st.chunks else st.chunks ++ [chunk] }

/-- The `start` component of a step is the shrunk window end minus the
overlap, independent of the accumulated chunks. -/
theorem chunk_step_start_eq (chunkSize chunkOverlap : Int) (text : List Char)
    (st : ChunkState) :
    (chunk_by_tokens_step chunkSize chunkOverlap text st).start
      = windowEnd chunkSize text st.start - chunkOverlap := rfl

/-- A text on which `chunk_by_tokens` with the default configuration
(`chunk_size = 500`, `chunk_overlap = 50`) never terminates: 149 letters,
a period, then 600 letters. -/
def badText : List Char := List.replicate 149 'a' ++ '.' :: List.replicate 600 'b'

theorem badText_length : badText.length = 750 := by decide

theorem badText_step_init :
    windowEnd 500 badText 0 - 50 = 100 := by decide

theorem badText_step_fixed :
    windowEnd 500 badText 100 - 50 = 100 := by decide

/-- On `badText` with the default configuration, every loop state after
the first iteration has `start = 100`: the period at index 149 keeps
shrinking the window to `end = 150`, and `150 - 50 = 100`. -/
theorem badText_start_stuck (n : Nat) :
    ((chunk_by_tokens_step 500 50 badText)^[n + 1] chunkInit).start = 100 := by
  induction n with
  | zero =>
    rw [Function.iterate_one, chunk_step_start_eq]
    exact badText_step_init
  | succ m ih =>
    rw [Function.iterate_succ_apply', chunk_step_start_eq, ih]
    exact badText_step_fixed

/-- C2: refuted by the code — the claim states that `chunk_by_tokens`
terminates on every input and configuration, but with the default
configuration (`chunk_size = 500`, `chunk_overlap = 50`) and the input
`badText` ("a" * 149 + "." + "b" * 600), the loop guard
`start < len(text)` holds after every iteration (`start` is stuck at
100 from the first iteration on), so the loop never reaches
`start >= len(text)` and runs forever. -/
theorem c2_chunk_by_tokens_nonterminating (n : Nat) :
    ((chunk_by_tokens_step 500 50 badText)^[n] chunkInit).start
      < (badText.length : Int) := by
  rw [badText_length]
  cases n with
  | zero => simp [chunkInit]
  | succ m => rw [badText_start_stuck m]; norm_num

/-- C4: refuted at a concrete iteration — on `badText` with the default
configuration, the very first iteration advances `start` from 0 to 100
(the window is shrunk to end at the period), not by
`chunk_size - chunk_overlap = 450`. -/
theorem c4_counterexample :
    (chunk_by_tokens_step 500 50 badText chunkInit).start - chunkInit.start
      ≠ 500 - 50 := by
  rw [chunk_step_start_eq]; decide

/-- C4 (amended): in every iteration of the window loop, the next start
position is exactly `overlap` characters before the previous window's
(possibly boundary-shrunk) end; it advances by exactly
`chunk_size - chunk_overlap` precisely when no boundary shrink occurred
(the window end is `start + chunk_size`). -/
theorem c4_amended_start_advance (chunkSize chunkOverlap : Int)
    (text : List Char) (st : ChunkState) :
    (chunk_by_tokens_step chunkSize chunkOverlap text st).start
        = windowEnd chunkSize text st.start - chunkOverlap ∧
      ((chunk_by_tokens_step chunkSize chunkOverlap text st).start - st.start
          = chunkSize - chunkOverlap
        ↔ windowEnd chunkSize text st.start = st.start + chunkSize) := by
  refine ⟨rfl, ?_⟩
  rw [chunk_step_start_eq]
  omega

/-! ## Cache (`src/cache.py`, `CacheManager`)

The backing store (one pickle file per `(category, key)` coordinate) is
modelled as a partial map from category and key to the file's content
together with its modification time.  A file's content is classified by
how `pickle.load` and the subsequent `data['value']` subscript behave on
it.  Clock readings (`time.time()`, `st_mtime`) are passed explicitly as
natural numbers. -/

/-- Content of a backing cache file, classified by its behaviour under
`pickle.load` and `data['value']`:
* `entryDict v t` — a pickle of `{'value': v, 'timestamp': t}` as
  written by `CacheManager.set`;
* `pickledNonDict` — a valid pickle of a non-subscriptable object, so
  `data['value']` raises `TypeError`;
* `pickledDictNoValue` — a valid pickle of a mapping without a
  `'value'` entry, so `data['value']` raises `KeyError`;
* `corrupt` — `pickle.load` raises `pickle.UnpicklingError`;
* `truncated` — an empty or cut-off file, `pickle.load` raises
  `EOFError`. -/
inductive Blob (α : Type) where
  | entryDict (value : α) (timestamp : Nat)
  | pickledNonDict
  | pickledDictNoValue
  | corrupt
  | truncated
  deriving DecidableEq, Repr

/-- The cache directory: for each `(category, key)` either no file, or a
file content and its modification time. -/
def CacheFs (α : Type) : Type := String → String → Option (Blob α × Nat)

/-- `CacheManager._is_expired` (`src/cache.py` lines 64-78): a missing
file is expired; otherwise the entry is expired iff its age measured
from the file's modification time strictly exceeds `ttl`. -/
def is_expired (ttl : Nat) (entry : Option (Blob α × Nat)) (now : Nat) : Bool :=
  match entry with
  | none => true
  | some (_, mtime) => ttl < now - mtime

/-- `CacheManager.set` (`src/cache.py` lines 80-95): write a pickle of
`{'value': value, 'timestamp': now}` at `category/key`; the file's
modification time becomes the write time. -/
def cache_set (fs : CacheFs α) (category key : String) (value : α)
    (now : Nat) : CacheFs α :=
  fun c k =>
    if c = category ∧ k = key then some (.entryDict value now, now) else fs c k

/-- `CacheManager.get` (`src/cache.py` lines 97-118): return `none` if
the entry is missing or expired; otherwise load the pickle and return
`data['value']`, where only `FileNotFoundError` and
`pickle.UnpicklingError` are caught (degrading to a miss) and every
other exception propagates to the caller. -/
def cache_get (ttl : Nat) (fs : CacheFs α) (category key : String)
    (now : Nat) : Except PyExc (Option α) :=
  match fs category key with
  | none => .ok none
  | some (blob, mtime) =>
    if is_expired ttl (some (blob, mtime)) now then .ok none
    else
      match blob with
      | .entryDict v _ => .ok (some v)
      | .corrupt => .ok none
      | .truncated => .error .eofError
      | .pickledNonDict => .error .typeError
      | .pickledDictNoValue => .error .keyError

/-- C3: refuted at a concrete backing entry — an existing, unexpired but
truncated entry (whose deserialization raises `EOFError`, which is not
in the `except (FileNotFoundError, pickle.UnpicklingError)` clause)
makes `get` raise instead of returning a miss. -/
theorem c3_counterexample :
    cache_get (α := Unit) 100 (fun _ _ => some (.truncated, 0)) "queries" "k" 0
        = .error .eofError ∧
      (Except.error PyExc.eofError : Except PyExc (Option Unit))
        ≠ .ok none :=
  ⟨rfl, fun h => Except.noConfusion h⟩

/-- C3 (amended): a missing backing file or an entry whose
deserialization raises `pickle.UnpicklingError` is treated as a miss;
but an unexpired entry that is unreadable in any other way propagates
its exception to the caller: a truncated file raises `EOFError`, a
pickled mapping without a `'value'` entry raises `KeyError`, and a
pickled non-mapping raises `TypeError`.  A well-formed unexpired entry
returns its value. -/
theorem c3_read_failure_semantics (α : Type) (ttl now mt : Nat)
    (fs : CacheFs α) (cat k : String) :
    (fs cat k = none → cache_get ttl fs cat k now = .ok none) ∧
      (fs cat k = some (.corrupt, mt) →
        cache_get ttl fs cat k now = .ok none) ∧
      (∀ v ts, fs cat k = some (.entryDict v ts, mt) → now - mt ≤ ttl →
        cache_get ttl fs cat k now = .ok (some v)) ∧
      (fs cat k = some (.truncated, mt) → now - mt ≤ ttl →
        cache_get ttl fs cat k now = .error .eofError) ∧
      (fs cat k = some (.pickledDictNoValue, mt) → now - mt ≤ ttl →
        cache_get ttl fs cat k now = .error .keyError) ∧
      (fs cat k = some (.pickledNonDict, mt) → now - mt ≤ ttl →
        cache_get ttl fs cat k now = .error .typeError) := by
  refine ⟨fun h => ?_, fun h => ?_, fun v ts h hage => ?_,
    fun h hage => ?_, fun h hage => ?_, fun h hage => ?_⟩
  · simp [cache_get, h]
  · simp only [cache_get, h, is_expired]
    split <;> rfl
  all_goals simp [cache_get, h, is_expired, Nat.not_lt.mpr hage]

/-- Witness for C3 (amended): concrete backing stores exercising the
corrupt-is-a-miss case and the truncated-raises case. -/
theorem c3_read_failure_semantics_witness :
    cache_get (α := Unit) 10 (fun _ _ => some (.corrupt, 0)) "c" "k" 3
        = .ok none ∧
      cache_get (α := Unit) 10 (fun _ _ => some (.truncated, 0)) "c" "k" 3
        = .error .eofError :=
  ⟨(c3_read_failure_semantics Unit 10 3 0 (fun _ _ => some (.corrupt, 0))
      "c" "k").2.1 rfl,
    (c3_read_failure_semantics Unit 10 3 0 (fun _ _ => some (.truncated, 0))
      "c" "k").2.2.2.1 rfl (by decide)⟩

/-! ## Cache key generation (`src/cache.py`, `CacheManager._generate_key`, lines 34-49)

`_generate_key` serializes a mapping or sequence with
`json.dumps(data, sort_keys=True)` (keys sorted at every nesting level,
default separators `", "` and `": "`) and hashes the canonical string
with SHA-256; any other value is hashed via its `str` form.  SHA-256 is
a fixed deterministic function of the input string, so it is carried as
an explicit function parameter: every theorem below holds for an
arbitrary choice of it, determinism being the only property the code
relies on. -/

/-- Python values passed to `_generate_key`: JSON-serializable data. -/
inductive PyData where
  | num (n : Int)
  | str (s : String)
  | boolean (b : Bool)
  | null
  | arr (elts : List PyData)
  | obj (fields : List (String × PyData))

/-- Serialized object fields are ordered by key, matching
`sort_keys=True` (Python sorts `str` keys by code point). -/
def fieldLe (p q : String × String) : Prop := p.1 ≤ q.1

instance : DecidableRel fieldLe := fun p q => inferInstanceAs (Decidable (p.1 ≤ q.1))

instance : IsTotal (String × String) fieldLe := ⟨fun p q => le_total p.1 q.1⟩

instance : IsTrans (String × String) fieldLe := ⟨fun _ _ _ h h' => le_trans h h'⟩

/-- JSON string escaping of `"` and `\` (the cases relevant here). -/
def jsonEscape (s : String) : String :=
  ((s.replace "\\" "\\\\").replace "\"" "\\\"")

mutual

/-- `json.dumps(data, sort_keys=True)`.  Object fields are serialized
and then put in key order; since the sort compares keys only and is
stable, this produces the same text as sorting the fields first and
then serializing each. -/
def dumps : PyData → String
  | .num n => toString n
  | .str s => "\"" ++ jsonEscape s ++ "\""
  | .boolean b => if b then "true" else "false"
  | .null => "null"
  | .arr l => "[" ++ ", ".intercalate (dumpElems l) ++ "]"
  | .obj fs =>
      "\x7b" ++ ", ".intercalate
          ((List.insertionSort fieldLe (dumpFields fs)).map
            (fun p => "\"" ++ jsonEscape p.1 ++ "\": " ++ p.2)) ++ "\x7d"

/-- Serialize each element of a JSON array. -/
def dumpElems : List PyData → List String
  | [] => []
  | x :: xs => dumps x :: dumpElems xs

/-- Serialize each field value of a JSON object, keeping its key. -/
def dumpFields : List (String × PyData) → List (String × String)
  | [] => []
  | (k, v) :: xs => (k, dumps v) :: dumpFields xs

end

/-- The canonical string `_generate_key` hashes (`src/cache.py` lines
44-47): `json.dumps(data, sort_keys=True)` for mappings and sequences,
`str(data)` otherwise. -/
def dataStr : PyData → String
  | .obj fs => dumps (.obj fs)
  | .arr l => dumps (.arr l)
  | .str s => s
  | .num n => toString n
  | .boolean b => if b then "True" else "False"
  | .null => "None"

/-- `CacheManager._generate_key` (`src/cache.py` lines 34-49): SHA-256
of the canonical string, for an arbitrary deterministic digest
function. -/
def generate_key (sha256 : String → String) (data : PyData) : String :=
  sha256 (dataStr data)

/-- Strict key order on serialized fields. -/
def fieldLt (p q : String × String) : Prop := p.1 < q.1

instance : IsAntisymm (String × String) fieldLt :=
  ⟨fun _ _ h1 h2 => ((lt_asymm h1) h2).elim⟩

/-- Two pointwise pairwise properties combine into one. -/
theorem pairwise_and {α : Type _} {R S : α → α → Prop} :
    ∀ {l : List α}, l.Pairwise R → l.Pairwise S →
      l.Pairwise (fun a b => R a b ∧ S a b) := by
  intro l h1 h2
  induction l with
  | nil => exact .nil
  | cons a t ih =>
    rcases List.pairwise_cons.mp h1 with ⟨hR, hR'⟩
    rcases List.pairwise_cons.mp h2 with ⟨hS, hS'⟩
    exact List.pairwise_cons.mpr ⟨fun b hb => ⟨hR b hb, hS b hb⟩, ih hR' hS'⟩

/-- Serializing fields keeps keys and maps `dumps` over values. -/
theorem dumpFields_eq_map (l : List (String × PyData)) :
    dumpFields l = l.map fun p => (p.1, dumps p.2) := by
  induction l with
  | nil => rfl
  | cons p t ih => cases p; simp [dumpFields, ih]

/-- A key-sorted list of fields with no duplicate keys is determined by
its multiset of fields: two permuted field lists with distinct keys
sort to the same list. -/
theorem insertionSort_fields_perm_eq {l1 l2 : List (String × String)}
    (hp : l1.Perm l2) (hnd : (l1.map Prod.fst).Nodup) :
    List.insertionSort fieldLe l1 = List.insertionSort fieldLe l2 := by
  have hs1 := List.sorted_insertionSort fieldLe l1
  have hs2 := List.sorted_insertionSort fieldLe l2
  have hperm : (List.insertionSort fieldLe l1).Perm
      (List.insertionSort fieldLe l2) :=
    (List.perm_insertionSort _ l1).trans
      (hp.trans (List.perm_insertionSort _ l2).symm)
  have strict : ∀ (l : List (String × String)),
      List.Sorted fieldLe (List.insertionSort fieldLe l) →
      ((List.insertionSort fieldLe l).map Prod.fst).Nodup →
      List.Sorted fieldLt (List.insertionSort fieldLe l) := by
    intro l hs hnodup
    have hne := List.pairwise_map.mp hnodup
    exact (pairwise_and hs hne).imp fun h => lt_of_le_of_ne h.1 h.2
  have hnd1 : ((List.insertionSort fieldLe l1).map Prod.fst).Nodup :=
    (((List.perm_insertionSort fieldLe l1).map Prod.fst).nodup_iff).mpr hnd
  have hnd2 : ((List.insertionSort fieldLe l2).map Prod.fst).Nodup :=
    ((hperm.map Prod.fst).nodup_iff).mp hnd1
  exact List.eq_of_perm_of_sorted hperm (strict l1 hs1 hnd1) (strict l2 hs2 hnd2)

/-- Two mappings equal as key-value sets produce the same cache key,
whatever the digest function. -/
theorem generate_key_perm (sha256 : String → String)
    (fs1 fs2 : List (String × PyData)) (hp : fs1.Perm fs2)
    (hnd : (fs1.map Prod.fst).Nodup) :
    generate_key sha256 (.obj fs1) = generate_key sha256 (.obj fs2) := by
  unfold generate_key dataStr
  congr 1
  have hfields : (dumpFields fs1).Perm (dumpFields fs2) := by
    rw [dumpFields_eq_map, dumpFields_eq_map]
    exact hp.map _
  have hndf : ((dumpFields fs1).map Prod.fst).Nodup := by
    rw [dumpFields_eq_map]
    have : (fs1.map fun p => (p.1, dumps p.2)).map Prod.fst
        = fs1.map Prod.fst := by
      simp
    rw [this]
    exact hnd
  simp only [dumps]
  rw [insertionSort_fields_perm_eq hfields hndf]

/-- C8: two mappings that are equal as key-value sets (a permutation of
each other, with the distinct keys every Python dict has) canonicalize
to the same sorted JSON text and therefore to the same cache key, for
any digest function; in particular the two insertion orders of
`a: 1, b: 2` produce the same key. -/
theorem c8_generate_key_order_independent (sha256 : String → String)
    (fs1 fs2 : List (String × PyData)) (hp : fs1.Perm fs2)
    (hnd : (fs1.map Prod.fst).Nodup) :
    generate_key sha256 (.obj fs1) = generate_key sha256 (.obj fs2) ∧
      generate_key sha256 (.obj [("a", .num 1), ("b", .num 2)])
        = generate_key sha256 (.obj [("b", .num 2), ("a", .num 1)]) :=
  ⟨generate_key_perm sha256 fs1 fs2 hp hnd,
    generate_key_perm sha256 _ _ (List.Perm.swap _ _ _) (by decide)⟩

/-- Witness for C8 at the spec's concrete mappings, with the identity
as the digest function. -/
theorem c8_generate_key_order_independent_witness :
    generate_key (fun s => s) (.obj [("a", .num 1), ("b", .num 2)])
      = generate_key (fun s => s) (.obj [("b", .num 2), ("a", .num 1)]) :=
  (c8_generate_key_order_independent (fun s => s) _ _
    (List.Perm.swap _ _ _) (by decide)).1

/-! ## Query entry point (`src/main.py`, `DocuMind.query`, lines 122-172)

`DocuMind.query` first consults the cache (`get_cached_query`, category
`queries`, key `_generate_key(question)` derived from the raw question
text) and returns the cached result without doing any pipeline work;
only on a miss does it run the pipeline (`get_context_for_generation`,
i.e. embed the query, search the index, assemble context, then generate
the answer) and cache the result (`cache_query_result`).  The pipeline
itself and the error handler are external to the claim and are carried
as opaque function parameters; the boolean in the result records
whether the pipeline ran, i.e. whether any embedding or search work was
performed. -/

/-- The state of `DocuMind` relevant to the query path: the cache
toggle, the cache manager's `ttl`, and the cache's backing store. -/
structure AppState (α : Type) where
  useCache : Bool
  ttl : Nat
  fs : CacheFs α

/-- `DocuMind.query` (`src/main.py` lines 122-172): returns the result,
the successor state, and whether the embed/search/generate pipeline was
executed.  A read failure propagating out of `cache.get` is turned into
an error result by the surrounding `except` handler, also without
running the pipeline. -/
def documind_query {α : Type} (sha256 : String → String)
    (pipeline : String → α) (errRes : PyExc → α) (s : AppState α)
    (question : String) (now : Nat) : α × AppState α × Bool :=
  if s.useCache then
    match cache_get s.ttl s.fs "queries"
        (generate_key sha256 (.str question)) now with
    | .error e => (errRes e, s, false)
    | .ok (some r) => (r, s, false)
    | .ok none =>
      let result := pipeline question
      (result,
        { s with
            fs := cache_set s.fs "queries"
              (generate_key sha256 (.str question)) result now },
        true)
  else (pipeline question, s, true)

/-- C1: when caching is enabled and the first invocation of the query
entry point actually performed the pipeline work (a cache miss), the
result is stored in the `queries` category under the key derived from
the raw query text, and a second invocation with the same question
within `ttl` returns the same result, leaves the state unchanged, and
performs no embedding or search work (the pipeline does not run). -/
theorem c1_repeated_query_short_circuits {α : Type}
    (sha256 : String → String) (pipeline : String → α)
    (errRes : PyExc → α) (s : AppState α) (q : String) (r1 : α)
    (s1 : AppState α) (t1 t2 : Nat) (hc : s.useCache = true)
    (h1 : documind_query sha256 pipeline errRes s q t1 = (r1, s1, true))
    (_hmono : t1 ≤ t2) (httl : t2 - t1 ≤ s1.ttl) :
    documind_query sha256 pipeline errRes s1 q t2 = (r1, s1, false) ∧
      s1.fs "queries" (generate_key sha256 (.str q))
        = some (.entryDict r1 t1, t1) := by
  simp only [documind_query, hc, if_true] at h1
  rcases hget : cache_get s.ttl s.fs "queries"
      (generate_key sha256 (.str q)) t1 with e | o
  · rw [hget] at h1
    simp only [Prod.mk.injEq] at h1
    exact absurd h1.2.2 (by simp)
  · rcases o with _ | r
    · rw [hget] at h1
      simp only [Prod.mk.injEq] at h1
      obtain ⟨hr, hs1, -⟩ := h1
      subst hs1
      subst hr
      have httl' : t2 - t1 ≤ s.ttl := httl
      have hfs : cache_set s.fs "queries" (generate_key sha256 (.str q))
            (pipeline q) t1 "queries" (generate_key sha256 (.str q))
          = some (.entryDict (pipeline q) t1, t1) := by
        simp [cache_set]
      refine ⟨?_, hfs⟩
      have hexp : is_expired s.ttl
          (some (Blob.entryDict (pipeline q) t1, t1)) t2 = false := by
        simp [is_expired, Nat.not_lt.mpr httl']
      simp only [documind_query, if_true]
      simp only [cache_get, hfs, hexp, Bool.false_eq_true, if_false]
    · rw [hget] at h1
      simp only [Prod.mk.injEq] at h1
      exact absurd h1.2.2 (by simp)

/-- Witness for C1: a concrete first query at time 0 against an empty
cache computes the pipeline, and the repeat at time 50 (within
`ttl = 100`) short-circuits with the cached result. -/
theorem c1_repeated_query_short_circuits_witness :
    documind_query (α := Nat) (fun s => s) (fun _ => 7) (fun _ => 0)
        ⟨true, 100, cache_set (fun _ _ => none) "queries" "hello" 7 0⟩
        "hello" 50
      = (7, ⟨true, 100, cache_set (fun _ _ => none) "queries" "hello" 7 0⟩,
          false) :=
  (c1_repeated_query_short_circuits (fun s => s) (fun _ => 7) (fun _ => 0)
    ⟨true, 100, fun _ _ => none⟩ "hello" 7
    ⟨true, 100, cache_set (fun _ _ => none) "queries" "hello" 7 0⟩ 0 50
    rfl rfl (by decide) (by decide)).1

/-- C7: cache round-trip — for every key, value and category, a `get`
performed after `set` returns the value while the entry's age (from the
storage-level write time) is within `ttl`, and returns a miss once the
age strictly exceeds `ttl`. -/
theorem c7_cache_round_trip (α : Type) (ttl : Nat) (fs : CacheFs α)
    (cat k : String) (v : α) (tWrite now : Nat) :
    (now - tWrite ≤ ttl →
        cache_get ttl (cache_set fs cat k v tWrite) cat k now = .ok (some v)) ∧
      (ttl < now - tWrite →
        cache_get ttl (cache_set fs cat k v tWrite) cat k now = .ok none) := by
  have hfs : cache_set fs cat k v tWrite cat k
      = some (.entryDict v tWrite, tWrite) := by
    simp [cache_set]
  constructor <;> intro hage
  · simp [cache_get, hfs, is_expired, Nat.not_lt.mpr hage]
  · simp [cache_get, hfs, is_expired, hage]

/-- Witness for C7: a concrete round-trip with `ttl = 10`, written at
time 0, read back at times 7 (hit) and 11 (miss). -/
theorem c7_cache_round_trip_witness :
    cache_get 10 (cache_set (fun _ _ => none) "general" "k" (42 : Nat) 0)
        "general" "k" 7 = .ok (some 42) ∧
      cache_get 10 (cache_set (fun _ _ => none) "general" "k" (42 : Nat) 0)
        "general" "k" 11 = .ok none :=
  ⟨(c7_cache_round_trip Nat 10 (fun _ _ => none) "general" "k" 42 0 7).1
      (by decide),
    (c7_cache_round_trip Nat 10 (fun _ _ => none) "general" "k" 42 0 11).2
      (by decide)⟩

/-! ## Context assembly (`src/query_processor.py`,
`QueryProcessor.get_context_for_generation`, lines 117-153)

The assembly loop walks the ranked results returned by `process_query`
(modelled here by their ordered list of `content` strings), keeps a
running total of the characters of the included contents, includes a
result only when the total would stay within `max_context_length`, and
`break`s at the first result that would not fit; the context is the
double-newline join of the included parts. -/

/-- One pass of the assembly loop (`src/query_processor.py` lines
137-146) with the running `total_length` made explicit. -/
def assemble_parts (maxLen : Nat) : Nat → List String → List String
  | _, [] => []
  | total, content :: rest =>
    if total + content.length ≤ maxLen then
      content :: assemble_parts maxLen (total + content.length) rest
    else []

/-- The context dictionary built by `get_context_for_generation`
(`src/query_processor.py` lines 148-153). -/
structure ContextData where
  query : String
  context : String
  sources : List String
  numSources : Nat

/-- `QueryProcessor.get_context_for_generation` (`src/query_processor.py`
lines 117-153), taking the ranked result contents of `process_query` as
input. -/
def get_context_for_generation (query : String) (results : List String)
    (maxLen : Nat) : ContextData :=
  let parts := assemble_parts maxLen 0 results
  ⟨query, String.intercalate "\n\n" parts, results, parts.length⟩

/-- Total character count of a list of contents. -/
def sumLens (parts : List String) : Nat := (parts.map String.length).sum

theorem assemble_parts_sum (maxLen : Nat) :
    ∀ (rs : List String) (total : Nat), total ≤ maxLen →
      total + sumLens (assemble_parts maxLen total rs) ≤ maxLen := by
  intro rs
  induction rs with
  | nil => intro total h; simpa [assemble_parts, sumLens]
  | cons c rest ih =>
    intro total h
    by_cases hfit : total + c.length ≤ maxLen
    · have := ih (total + c.length) hfit
      simp only [assemble_parts, if_pos hfit, sumLens, List.map_cons,
        List.sum_cons] at *
      omega
    · simpa [assemble_parts, if_neg hfit, sumLens]

theorem assemble_parts_prefix (maxLen : Nat) :
    ∀ (rs : List String) (total : Nat),
      assemble_parts maxLen total rs
        = rs.take (assemble_parts maxLen total rs).length := by
  intro rs
  induction rs with
  | nil => intro total; rfl
  | cons c rest ih =>
    intro total
    by_cases hfit : total + c.length ≤ maxLen
    · simp only [assemble_parts, if_pos hfit, List.length_cons, List.take_succ_cons]
      exact congrArg (c :: ·) (ih (total + c.length))
    · simp [assemble_parts, if_neg hfit]

theorem assemble_parts_stop (maxLen : Nat) :
    ∀ (rs : List String) (total : Nat) (c : String),
      rs.get? (assemble_parts maxLen total rs).length = some c →
      maxLen < total + sumLens (assemble_parts maxLen total rs) + c.length := by
  intro rs
  induction rs with
  | nil => intro total c h; exact absurd h (by simp)
  | cons d rest ih =>
    intro total c h
    by_cases hfit : total + d.length ≤ maxLen
    · simp only [assemble_parts, if_pos hfit, List.length_cons,
        List.get?_cons_succ] at h
      have := ih (total + d.length) c h
      simp only [assemble_parts, if_pos hfit, sumLens, List.map_cons,
        List.sum_cons] at *
      omega
    · simp only [assemble_parts, if_neg hfit, List.length_nil,
        List.get?_cons_zero] at h
      cases h
      simp only [assemble_parts, if_neg hfit, sumLens, List.map_nil,
        List.sum_nil]
      omega

/-- C9: context assembly joins the included result contents with double
newlines, includes results greedily in ranked order (the parts are a
prefix of the ranked results), the cumulative character length of the
included contents never exceeds the budget, and the first result that
would overflow the budget is skipped entirely — nothing of it is
included and assembly stops there (only the results before it appear). -/
theorem c9_context_assembly (query : String) (results : List String)
    (maxLen : Nat) :
    (get_context_for_generation query results maxLen).context
        = String.intercalate "\n\n" (assemble_parts maxLen 0 results) ∧
      sumLens (assemble_parts maxLen 0 results) ≤ maxLen ∧
      assemble_parts maxLen 0 results
        = results.take (assemble_parts maxLen 0 results).length ∧
      (∀ c, results.get? (assemble_parts maxLen 0 results).length = some c →
        maxLen < sumLens (assemble_parts maxLen 0 results) + c.length) := by
  refine ⟨rfl, ?_, assemble_parts_prefix maxLen results 0, fun c h => ?_⟩
  · have := assemble_parts_sum maxLen results 0 (Nat.zero_le _)
    omega
  · have := assemble_parts_stop maxLen results 0 c h
    omega

/-- Witness for C9: budget 4 with ranked contents `["ab", "cd", "ef"]`
includes exactly `["ab", "cd"]` and stops at `"ef"`, whose inclusion
would overflow. -/
theorem c9_context_assembly_witness :
    (get_context_for_generation "q" ["ab", "cd", "ef"] 4).context
        = String.intercalate "\n\n" (assemble_parts 4 0 ["ab", "cd", "ef"]) ∧
      4 < sumLens (assemble_parts 4 0 ["ab", "cd", "ef"]) + "ef".length :=
  ⟨(c9_context_assembly "q" ["ab", "cd", "ef"] 4).1,
    (c9_context_assembly "q" ["ab", "cd", "ef"] 4).2.2.2 "ef" (by decide)⟩

/-! ## Vector index (`src/vector_store.py`, `VectorStore`)

Embeddings are numpy float arrays in the source; they are modelled as
lists of real numbers, the standard idealization of IEEE floats.
The Python dict `index_to_id` is modelled by its mapping
`Nat → Option String`; dict assignment becomes `Function.update` and
the rebuild comprehension in `delete` becomes the pointwise lookup
function it denotes. -/

/-- `VectorDocument` (`src/vector_store.py` lines 9-15). -/
structure VectorDocument where
  id : String
  content : String
  embedding : List ℝ
  metadata : List (String × String)

/-- `VectorStore` state (`src/vector_store.py` lines 23-32). -/
structure VectorStore where
  dimension : Nat
  documents : List VectorDocument
  index_to_id : Nat → Option String

/-- `VectorStore.__init__` (`src/vector_store.py` lines 23-32). -/
def VectorStore.empty (dimension : Nat) : VectorStore :=
  ⟨dimension, [], fun _ => none⟩

/-- `VectorStore.add_document` (`src/vector_store.py` lines 34-61):
raise `ValueError` when the embedding length differs from the index
dimension (before any mutation), otherwise append the document and
record its position in `index_to_id`. -/
def VectorStore.add_document (s : VectorStore) (docId content : String)
    (embedding : List ℝ) (metadata : List (String × String)) :
    Except PyExc VectorStore :=
  if embedding.length ≠ s.dimension then
    .error (.valueError ("Embedding dimension mismatch: expected "
      ++ toString s.dimension ++ ", got " ++ toString embedding.length))
  else
    let docs := s.documents ++ [⟨docId, content, embedding, metadata⟩]
    .ok { s with
      documents := docs
      index_to_id := Function.update s.index_to_id (docs.length - 1) (some docId) }

/-- `VectorStore.delete` (`src/vector_store.py` lines 123-139): remove
the first document with the given id and rebuild the position-to-id
mapping; report whether anything was deleted. -/
def VectorStore.delete (s : VectorStore) (docId : String) :
    VectorStore × Bool :=
  match s.documents.findIdx? (fun d => d.id == docId) with
  | some i =>
    let docs := s.documents.eraseIdx i
    ({ s with
        documents := docs
        index_to_id := fun j => (docs.get? j).map VectorDocument.id }, true)
  | none => (s, false)

/-- `VectorStore.clear` (`src/vector_store.py` lines 141-144). -/
def VectorStore.clear (s : VectorStore) : VectorStore :=
  { s with documents := [], index_to_id := fun _ => none }

/-- C6: inserting an embedding whose length differs from the index
dimension fails with the `ValueError` dimension-mismatch condition and
produces no new store state (the store is unchanged by the failed
insert); inserting an embedding of the correct dimension succeeds,
appending exactly the new document. -/
theorem c6_add_document_dimension_mismatch (s : VectorStore)
    (docId content : String) (embedding : List ℝ)
    (metadata : List (String × String)) :
    (embedding.length ≠ s.dimension →
      s.add_document docId content embedding metadata
          = .error (.valueError ("Embedding dimension mismatch: expected "
            ++ toString s.dimension ++ ", got " ++ toString embedding.length)) ∧
        ∀ s', s.add_document docId content embedding metadata ≠ .ok s') ∧
      (embedding.length = s.dimension →
        s.add_document docId content embedding metadata
          = .ok { s with
              documents := s.documents ++ [⟨docId, content, embedding, metadata⟩]
              index_to_id := Function.update s.index_to_id
                s.documents.length (some docId) }) := by
  constructor
  · intro hne
    have herr : s.add_document docId content embedding metadata
        = .error (.valueError ("Embedding dimension mismatch: expected "
          ++ toString s.dimension ++ ", got " ++ toString embedding.length)) := by
      simp [VectorStore.add_document, hne]
    exact ⟨herr, fun s' hok => by rw [herr] at hok; exact Except.noConfusion hok⟩
  · intro heq
    simp only [VectorStore.add_document, heq, ne_eq, not_true_eq_false,
      if_false, List.length_append, List.length_cons, List.length_nil,
      Nat.add_sub_cancel]

/-- Witness for C6: a 2-element embedding is rejected by a 3-dimensional
store, a 3-element embedding is inserted. -/
theorem c6_add_document_dimension_mismatch_witness :
    (VectorStore.empty 3).add_document "a" "x" [(1 : ℝ), 0] []
        = .error (.valueError ("Embedding dimension mismatch: expected "
          ++ toString (3 : Nat) ++ ", got " ++ toString (2 : Nat))) ∧
      (VectorStore.empty 3).add_document "a" "x" [(1 : ℝ), 0, 0] []
        = .ok ⟨3, [⟨"a", "x", [(1 : ℝ), 0, 0], []⟩],
            Function.update (fun _ => none) 0 (some "a")⟩ :=
  ⟨((c6_add_document_dimension_mismatch (VectorStore.empty 3) "a" "x"
      [(1 : ℝ), 0] []).1 (by decide)).1,
    (c6_add_document_dimension_mismatch (VectorStore.empty 3) "a" "x"
      [(1 : ℝ), 0, 0] []).2 (by decide)⟩

/-- The internal consistency invariant of the store: the position-to-id
mapping is defined exactly at the positions of the document list and
maps each position to the id of the document stored there. -/
def StoreInv (s : VectorStore) : Prop :=
  ∀ j, s.index_to_id j = (s.documents.get? j).map VectorDocument.id

/-- States reachable from a fresh store by any sequence of (successful
or failed) inserts, deletes and clears. -/
inductive Reachable : VectorStore → Prop
  | init (dimension : Nat) : Reachable (VectorStore.empty dimension)
  | add {s s' : VectorStore} (docId content : String) (embedding : List ℝ)
      (metadata : List (String × String)) : Reachable s →
      s.add_document docId content embedding metadata = .ok s' → Reachable s'
  | del {s : VectorStore} (docId : String) : Reachable s →
      Reachable (s.delete docId).1
  | clear {s : VectorStore} : Reachable s → Reachable s.clear

/-- C10: in every reachable vector store state, `index_to_id` is exactly
consistent with the document list: it is defined precisely on the valid
positions and maps each position to the id of the document stored
there. -/
theorem c10_index_to_id_consistent (s : VectorStore) (h : Reachable s) :
    StoreInv s := by
  induction h with
  | init d => intro j; simp [VectorStore.empty]
  | add docId content embedding metadata hr hok ih =>
    rename_i s s'
    rw [VectorStore.add_document] at hok
    split at hok
    · exact absurd hok (fun h => Except.noConfusion h)
    · obtain rfl := (Except.ok.inj hok).symm
      intro j
      have hlen : (s.documents
          ++ [(⟨docId, content, embedding, metadata⟩ : VectorDocument)]).length - 1
          = s.documents.length := by simp
      rw [hlen]
      dsimp only
      by_cases hj : j = s.documents.length
      · subst hj
        rw [Function.update_same, List.get?_concat_length]
        rfl
      · rw [Function.update_noteq hj, ih j]
        rcases Nat.lt_or_ge j s.documents.length with hlt | hge
        · rw [List.get?_append hlt]
        · have h1 : s.documents.get? j = none := List.get?_eq_none.mpr hge
          have h2 : (s.documents
              ++ [(⟨docId, content, embedding, metadata⟩ : VectorDocument)]).get? j
              = none := by
            refine List.get?_eq_none.mpr ?_
            simp only [List.length_append, List.length_cons, List.length_nil]
            omega
          rw [h1, h2]
  | del docId hr ih =>
    rename_i s
    intro j
    rcases hfind : s.documents.findIdx? (fun d => d.id == docId) with _ | i
    · simp only [VectorStore.delete, hfind]
      exact ih j
    · simp only [VectorStore.delete, hfind]
  | clear hr ih => intro j; simp [VectorStore.clear]

/-- Witness for C10: the store reached by one successful insert into a
fresh 3-dimensional store satisfies the consistency invariant at
position 0. -/
theorem c10_index_to_id_consistent_witness :
    (⟨3, [⟨"a", "x", [(1 : ℝ), 0, 0], []⟩],
        Function.update (fun _ => none) 0 (some "a")⟩ : VectorStore).index_to_id 0
      = some "a" :=
  (c10_index_to_id_consistent _
    (Reachable.add "a" "x" [(1 : ℝ), 0, 0] [] (Reachable.init 3) rfl) 0).trans rfl

/-! ## Similarity search (`src/vector_store.py`, `cosine_similarity` and
`search`, lines 63-106)

Numpy float arithmetic is idealized over the reals, so these
definitions are noncomputable; comparisons are decided classically.
CPython's `list.sort(key=..., reverse=True)` is a stable sort: entries
with equal keys keep their original relative order.  It is modelled by
decorating each retained entry with its position and sorting by the
total order "similarity descending, then position ascending", which is
exactly the permutation the stable reverse sort applies. -/

noncomputable instance realLeDec (x y : ℝ) : Decidable (x ≤ y) :=
  Classical.propDecidable _

/-- `np.dot` on equal-length 1-d arrays. -/
def dotList (a b : List ℝ) : ℝ := ((a.zip b).map fun p => p.1 * p.2).sum

/-- `np.linalg.norm`: the Euclidean norm. -/
noncomputable def normList (v : List ℝ) : ℝ := Real.sqrt (dotList v v)

/-- `VectorStore.cosine_similarity` (`src/vector_store.py` lines 63-74):
`np.dot(a, b) / (np.linalg.norm(a) * np.linalg.norm(b))`. -/
noncomputable def cosine_similarity (a b : List ℝ) : ℝ :=
  dotList a b / (normList a * normList b)

/-- The order realized by the stable reverse sort on `(position,
(document, similarity))` entries: higher similarity first, equal
similarities in position order. -/
def pySortRel (p q : Nat × (VectorDocument × ℝ)) : Prop :=
  q.2.2 < p.2.2 ∨ (p.2.2 = q.2.2 ∧ p.1 ≤ q.1)

noncomputable instance : DecidableRel pySortRel :=
  fun _ _ => Classical.propDecidable _

instance : IsTotal (Nat × (VectorDocument × ℝ)) pySortRel := by
  constructor
  intro p q
  rcases lt_trichotomy p.2.2 q.2.2 with h | h | h
  · exact Or.inr (Or.inl h)
  · rcases Nat.le_total p.1 q.1 with hn | hn
    · exact Or.inl (Or.inr ⟨h, hn⟩)
    · exact Or.inr (Or.inr ⟨h.symm, hn⟩)
  · exact Or.inl (Or.inl h)

instance : IsTrans (Nat × (VectorDocument × ℝ)) pySortRel := by
  constructor
  rintro p q r (hpq | ⟨hpq, hpq'⟩) (hqr | ⟨hqr, hqr'⟩)
  · exact Or.inl (hqr.trans hpq)
  · exact Or.inl (hqr ▸ hpq)
  · exact Or.inl (lt_of_lt_of_eq hqr hpq.symm)
  · exact Or.inr ⟨hpq.trans hqr, hpq'.trans hqr'⟩

/-- The retained entries (`src/vector_store.py` lines 97-101): each
stored document paired with its similarity to the query, in insertion
order, keeping those with similarity at or above the threshold. -/
noncomputable def similarities (s : VectorStore) (q : List ℝ)
    (threshold : ℝ) : List (VectorDocument × ℝ) :=
  (s.documents.map fun d => (d, cosine_similarity q d.embedding)).filter
    fun p => decide (threshold ≤ p.2)

/-- The retained entries decorated with their positions and put in the
stable descending order (`similarities.sort(key=lambda x: x[1],
reverse=True)`, `src/vector_store.py` line 104). -/
noncomputable def sortedSims (s : VectorStore) (q : List ℝ)
    (threshold : ℝ) : List (Nat × (VectorDocument × ℝ)) :=
  List.insertionSort pySortRel (similarities s q threshold).enum

/-- `VectorStore.search` (`src/vector_store.py` lines 76-106): empty
store short-circuits to an empty result; otherwise the retained entries
in stable descending similarity order, truncated to the first
`top_k`. -/
noncomputable def VectorStore.search (s : VectorStore) (q : List ℝ)
    (top_k : Nat) (threshold : ℝ) : List (VectorDocument × ℝ) :=
  if s.documents.isEmpty then []
  else ((sortedSims s q threshold).map Prod.snd).take top_k

theorem search_sorted_desc (s : VectorStore) (q : List ℝ) (top_k : Nat)
    (threshold : ℝ) :
    List.Pairwise (fun x y : VectorDocument × ℝ => y.2 ≤ x.2)
      (s.search q top_k threshold) := by
  rw [VectorStore.search]
  split
  · exact List.Pairwise.nil
  · refine List.Pairwise.sublist (List.take_sublist _ _) ?_
    refine List.pairwise_map.mpr ?_
    refine (List.sorted_insertionSort pySortRel _).imp ?_
    rintro a b (h | ⟨h, -⟩)
    · exact le_of_lt h
    · exact le_of_eq h.symm

theorem sortedSims_stable (s : VectorStore) (q : List ℝ) (threshold : ℝ) :
    List.Pairwise (fun x y : Nat × (VectorDocument × ℝ) =>
      x.2.2 = y.2.2 → x.1 < y.1) (sortedSims s q threshold) := by
  have hs := List.sorted_insertionSort pySortRel (similarities s q threshold).enum
  have hnd : ((sortedSims s q threshold).map Prod.fst).Nodup := by
    refine (((List.perm_insertionSort pySortRel _).map Prod.fst).nodup_iff).mpr ?_
    exact List.nodup_enum_map_fst _
  have hne := List.pairwise_map.mp hnd
  refine (pairwise_and hs hne).imp ?_
  rintro a b ⟨hab | ⟨hab, hab'⟩, hne'⟩ heq
  · exact absurd hab (heq ▸ lt_irrefl _)
  · exact lt_of_le_of_ne hab' hne'

theorem sortedSims_perm (s : VectorStore) (q : List ℝ) (threshold : ℝ) :
    ((sortedSims s q threshold).map Prod.snd).Perm
      (similarities s q threshold) := by
  have h := (List.perm_insertionSort pySortRel
    (similarities s q threshold).enum).map Prod.snd
  rwa [List.enum_map_snd] at h

/-! ### The spec's concrete search scenario -/

/-- First inserted document of the scenario. -/
def docA : VectorDocument := ⟨"a", "a", [1, 0, 0], []⟩

/-- Second inserted document of the scenario. -/
def docB : VectorDocument := ⟨"b", "b", [0, 1, 0], []⟩

/-- Third inserted document of the scenario. -/
def docC : VectorDocument := ⟨"c", "c", [0.9, 0.1, 0], []⟩

/-- The store obtained by inserting `a`, `b`, `c` into a fresh
3-dimensional store. -/
def scenarioStore : VectorStore :=
  ⟨3, [docA, docB, docC],
    Function.update
      (Function.update (Function.update (fun _ => none) 0 (some "a"))
        1 (some "b")) 2 (some "c")⟩

/-- The insertion sequence of the scenario. -/
def buildScenario : Except PyExc VectorStore :=
  (VectorStore.empty 3).add_document "a" "a" [1, 0, 0] [] >>= fun s1 =>
    s1.add_document "b" "b" [0, 1, 0] [] >>= fun s2 =>
      s2.add_document "c" "c" [0.9, 0.1, 0] []

theorem buildScenario_ok : buildScenario = .ok scenarioStore := rfl

theorem simA_eq : cosine_similarity [(1:ℝ), 0, 0] [(1:ℝ), 0, 0] = 1 := by
  simp [cosine_similarity, normList, dotList]

theorem simB_eq : cosine_similarity [(1:ℝ), 0, 0] [(0:ℝ), 1, 0] = 0 := by
  simp [cosine_similarity, normList, dotList]

theorem simC_eq : cosine_similarity [(1:ℝ), 0, 0] [(0.9:ℝ), 0.1, 0]
    = 0.9 / Real.sqrt 0.82 := by
  simp only [cosine_similarity, normList, dotList]
  norm_num

theorem simC_bounds :
    (0.993 : ℝ) < 0.9 / Real.sqrt 0.82 ∧ (0.9 / Real.sqrt 0.82 : ℝ) < 0.995
      ∧ (0:ℝ) < 0.9 / Real.sqrt 0.82 ∧ (0.9 / Real.sqrt 0.82 : ℝ) < 1 := by
  have h0 : (0:ℝ) < 0.82 := by norm_num
  have hpos : 0 < Real.sqrt 0.82 := Real.sqrt_pos.mpr h0
  have hlb : (0.905 : ℝ) < Real.sqrt 0.82 := by
    rw [show (0.905:ℝ) = Real.sqrt (0.905 ^ 2) from
      (Real.sqrt_sq (by norm_num)).symm]
    exact Real.sqrt_lt_sqrt (by norm_num) (by norm_num)
  have hub : Real.sqrt 0.82 < 0.906 := by
    rw [show (0.906:ℝ) = Real.sqrt (0.906 ^ 2) from
      (Real.sqrt_sq (by norm_num)).symm]
    exact Real.sqrt_lt_sqrt (by norm_num) (by norm_num)
  refine ⟨?_, ?_, ?_, ?_⟩
  · rw [lt_div_iff hpos]; nlinarith
  · rw [div_lt_iff hpos]; nlinarith
  · exact div_pos (by norm_num) hpos
  · rw [div_lt_one hpos]; nlinarith

theorem scenario_similarities :
    similarities scenarioStore [(1:ℝ), 0, 0] 0
      = [(docA, 1), (docB, 0), (docC, 0.9 / Real.sqrt 0.82)] := by
  rw [similarities]
  dsimp only [scenarioStore, docA, docB, docC, List.map_cons, List.map_nil]
  rw [simA_eq, simB_eq, simC_eq]
  simp only [List.filter_cons, List.filter_nil, decide_eq_true_eq]
  rw [if_pos (show (0:ℝ) ≤ 1 by norm_num), if_pos (le_refl (0:ℝ)),
    if_pos simC_bounds.2.2.1.le]

theorem scenario_sorted :
    sortedSims scenarioStore [(1:ℝ), 0, 0] 0
      = [(0, (docA, 1)), (2, (docC, 0.9 / Real.sqrt 0.82)),
          (1, (docB, 0))] := by
  have hneg1 : ¬ pySortRel (1, (docB, 0))
      (2, (docC, 0.9 / Real.sqrt 0.82)) := by
    rintro (h | ⟨h, -⟩)
    · exact absurd h (not_lt.mpr simC_bounds.2.2.1.le)
    · exact simC_bounds.2.2.1.ne h
  have hpos2 : pySortRel (0, (docA, 1))
      (2, (docC, 0.9 / Real.sqrt 0.82)) :=
    Or.inl simC_bounds.2.2.2
  rw [sortedSims, scenario_similarities]
  show List.insertionSort pySortRel
      [(0, (docA, 1)), (1, (docB, 0)),
        (2, (docC, 0.9 / Real.sqrt 0.82))] = _
  simp only [List.insertionSort, List.orderedInsert]
  rw [if_neg hneg1]
  simp only [List.orderedInsert]
  rw [if_pos hpos2]

theorem scenario_search :
    (scenarioStore.search [(1:ℝ), 0, 0] 2 0).map (fun p => (p.1.id, p.2))
      = [("a", (1:ℝ)), ("c", 0.9 / Real.sqrt 0.82)] := by
  rw [VectorStore.search, if_neg (by decide :
    ¬ scenarioStore.documents.isEmpty = true), scenario_sorted]
  simp [docA, docC]

/-- C5: `search` returns the retained entries — exactly the stored
documents whose cosine similarity to the query is at or above the
threshold — in descending similarity order with ties kept in insertion
order, truncated to the first `top_k`; an empty index gives an empty
result.  On the concrete scenario (dimension 3, entries
`a = [1,0,0]`, `b = [0,1,0]`, `c = [0.9,0.1,0]`, query `[1,0,0]`,
`top_k = 2`, `threshold = 0`) the result is `[a, c]` with `a`'s
similarity exactly 1 and `c`'s similarity `0.9 / sqrt 0.82`, which lies
strictly between 0.993 and 0.995 (≈ 0.994). -/
theorem c5_search_semantics :
    (∀ (d : Nat) (q : List ℝ) (k : Nat) (t : ℝ),
        (VectorStore.empty d).search q k t = []) ∧
      (∀ (s : VectorStore) (q : List ℝ) (k : Nat) (t : ℝ),
        (s.search q k t).length ≤ k) ∧
      (∀ (s : VectorStore) (q : List ℝ) (k : Nat) (t : ℝ),
        List.Pairwise (fun x y : VectorDocument × ℝ => y.2 ≤ x.2)
          (s.search q k t)) ∧
      (∀ (s : VectorStore) (q : List ℝ) (t : ℝ),
        List.Pairwise (fun x y : Nat × (VectorDocument × ℝ) =>
          x.2.2 = y.2.2 → x.1 < y.1) (sortedSims s q t)) ∧
      (∀ (s : VectorStore) (q : List ℝ) (t : ℝ),
        ((sortedSims s q t).map Prod.snd).Perm (similarities s q t)) ∧
      buildScenario = .ok scenarioStore ∧
      (scenarioStore.search [(1:ℝ), 0, 0] 2 0).map (fun p => (p.1.id, p.2))
        = [("a", (1:ℝ)),
            ("c", cosine_similarity [(1:ℝ), 0, 0] [(0.9:ℝ), 0.1, 0])] ∧
      cosine_similarity [(1:ℝ), 0, 0] [(1:ℝ), 0, 0] = 1 ∧
      (0.993:ℝ) < cosine_similarity [(1:ℝ), 0, 0] [(0.9:ℝ), 0.1, 0] ∧
      cosine_similarity [(1:ℝ), 0, 0] [(0.9:ℝ), 0.1, 0] < 0.995 := by
  refine ⟨fun d q k t => rfl, ?_, search_sorted_desc, sortedSims_stable,
    sortedSims_perm, buildScenario_ok, ?_, simA_eq, ?_, ?_⟩
  · intro s q k t
    rw [VectorStore.search]
    split
    · exact Nat.zero_le _
    · rw [List.length_take]
      exact min_le_left _ _
  · rw [simC_eq]
    exact scenario_search
  · rw [simC_eq]
    exact simC_bounds.1
  · rw [simC_eq]
    exact simC_bounds.2.1
